import Mathlib

/-!
Verification of the document-template service of the Unified-WebApp
repository (`shipment_form_backend/models.py`): placeholder extraction,
field-schema building, document fill, and the `DocumentTemplate` /
`GeneratedDocument` entities.  Text is modelled as Lean `String`
(scanning is done on the underlying `List Char`); the persisted entities
are modelled as explicit records, and stateful operations pass state
explicitly.
-/

namespace ShipmentForm

/-- Python `str.strip()` / `\s` whitespace, restricted to the ASCII
whitespace characters: space, tab, newline, carriage return, vertical
tab, form feed. -/
def pyWs (c : Char) : Bool :=
  c = ' ' || c = '\t' || c = '\n' || c = '\r' || c = '\x0b' || c = '\x0c'

/-- Python `str.strip()`: drop leading and trailing whitespace. -/
def pyStrip (l : List Char) : List Char :=
  ((l.dropWhile pyWs).reverse.dropWhile pyWs).reverse

/-- `re.sub(r"\s+", "_", s)`: each maximal whitespace run becomes one
underscore.  The boolean argument records whether the previous character
was part of a whitespace run already replaced. -/
def collapseWsAux : Bool → List Char → List Char
  | _, [] => []
  | prevWs, c :: rest =>
    if pyWs c then
      if prevWs then collapseWsAux true rest
      else '_' :: collapseWsAux true rest
    else c :: collapseWsAux false rest

/-- `re.sub(r"\s+", "_", s)` from the start of the string. -/
def collapseWs (l : List Char) : List Char := collapseWsAux false l

/-- `re.findall(r"\[([^\]]+)\]", s)`: scan left to right; at a `[`,
greedily capture the non-`]` run before the next `]` (at least one
character); a failed attempt resumes scanning one position further, a
successful match resumes after its closing `]`.  The fuel argument only
makes the recursion structural: every recursive call shortens the list,
so fuel = length of the list always suffices. -/
def findallSquareAux : Nat → List Char → List (List Char)
  | 0, _ => []
  | _, [] => []
  | fuel + 1, c :: rest =>
    if c = '[' then
      match rest.dropWhile (fun x => x ≠ ']') with
      | [] => findallSquareAux fuel rest
      | _ :: tail =>
        let cap := rest.takeWhile (fun x => x ≠ ']')
        if cap.isEmpty then findallSquareAux fuel rest
        else cap :: findallSquareAux fuel tail
    else findallSquareAux fuel rest

/-- All captures of `re.findall(r"\[([^\]]+)\]", s)`, in order. -/
def findallSquare (l : List Char) : List (List Char) :=
  findallSquareAux l.length l

/-- `re.findall(r"\{\{([^}]+)\}\}", s)`: at `{{`, greedily capture the
non-`}` run (at least one character), then require `}}`; a failed
attempt resumes one position further, a successful match resumes after
the two closing braces.  Fuel as in `findallSquareAux`. -/
def findallBraceAux : Nat → List Char → List (List Char)
  | 0, _ => []
  | _, [] => []
  | _, [_] => []
  | fuel + 1, c1 :: c2 :: rest2 =>
    if c1 = '{' && c2 = '{' then
      match rest2.dropWhile (fun x => x ≠ '}') with
      | _ :: y :: tail =>
        let cap := rest2.takeWhile (fun x => x ≠ '}')
        if y = '}' && !cap.isEmpty then cap :: findallBraceAux fuel tail
        else findallBraceAux fuel (c2 :: rest2)
      | _ => findallBraceAux fuel (c2 :: rest2)
    else findallBraceAux fuel (c2 :: rest2)

/-- All captures of `re.findall(r"\{\{([^}]+)\}\}", s)`, in order. -/
def findallBrace (l : List Char) : List (List Char) :=
  findallBraceAux l.length l

/-- Boolean lexicographic comparison of character lists by code point:
the order Python's `sorted` uses on the extracted key strings. -/
def lexLe : List Char → List Char → Bool
  | [], _ => true
  | _ :: _, [] => false
  | a :: as, b :: bs =>
    if a < b then true
    else if b < a then false
    else lexLe as bs

/-- Lexicographic comparison of keys. -/
def keyLe (a b : String) : Bool := lexLe a.data b.data

/-- A paragraph as python-docx presents it: the list of the texts of its
runs.  `paragraph.text` is their concatenation. -/
abbrev Paragraph : Type := List String

/-- `paragraph.text`: the concatenation of the texts of the runs. -/
def paraText (p : Paragraph) : String := String.join p

/-- A table cell: its list of paragraphs.  `cell.text` joins the
paragraph texts with a newline. -/
abbrev Cell : Type := List Paragraph

/-- `cell.text` in python-docx. -/
def cellText (c : Cell) : String :=
  String.intercalate "\n" (c.map paraText)

/-- A table: its rows, each row its cells. -/
abbrev Table : Type := List (List Cell)

/-- A .docx document as the code reads it: body paragraphs and tables. -/
structure Docx where
  paragraphs : List Paragraph
  tables : List Table
deriving DecidableEq

/-- The text stream `extract_placeholders_from_docx` scans: every body
paragraph's text, then every table cell's text (row-major, all tables),
joined with `"\n"`. -/
def joinedText (d : Docx) : String :=
  String.intercalate "\n"
    (d.paragraphs.map paraText ++
      (d.tables.map (fun t => t.map (fun row => row.map cellText))).flatten.flatten)

/-- The raw captured keys of both regexes, each `str.strip()`ed, in the
order the two `re.findall` loops add them (square brackets first). -/
def rawKeys (d : Docx) : List String :=
  ((findallSquare (joinedText d).data ++ findallBrace (joinedText d).data).map
    (fun l => String.mk (pyStrip l)))

/-- Normalisation of one already-collected key (lines 58-63 of
`models.py`): strip again, then collapse internal whitespace runs to a
single underscore. -/
def normalizeKey (k : String) : String :=
  String.mk (collapseWs (pyStrip k.data))

/-- `extract_placeholders_from_docx`: collect the stripped captures of
both placeholder syntaxes into a set, normalise each, and return the
sorted list of the distinct normalised keys.  Python's `set` iteration
order is immaterial because the result is sorted. -/
def extract_placeholders_from_docx (d : Docx) : List String :=
  List.insertionSort (fun a b => keyLe a b = true)
    (((rawKeys d).dedup.map normalizeKey).dedup)

/-- Python truthiness of the `key_field` column (`CharField` that may be
NULL): `not self.key_field` is true when the field is NULL or the empty
string. -/
def pyFalsy : Option String → Bool
  | none => true
  | some s => s.data.isEmpty

/-- Python `str.title()` restricted to ASCII: a letter that follows a
letter is lowercased, a letter that follows a non-letter (or starts the
string) is uppercased, other characters are kept. -/
def pyTitleAux : Bool → List Char → List Char
  | _, [] => []
  | prevAlpha, c :: rest =>
    if c.isAlpha then
      (if prevAlpha then c.toLower else c.toUpper) :: pyTitleAux true rest
    else c :: pyTitleAux false rest

/-- `str.title()` from the start of the string. -/
def pyTitle (s : String) : String := String.mk (pyTitleAux false s.data)

/-- The friendly label derived for a key (line 106 of `models.py`):
`k.replace("_", " ").strip().title()`. -/
def humanizeLabel (k : String) : String :=
  pyTitle (String.mk (pyStrip (k.data.map fun c => if c = '_' then ' ' else c)))

/-- The persisted `DocumentTemplate` row, restricted to the columns the
claims are about.  `file` is the referenced blob: `none` models a
missing underlying file.  `updated_at` is an abstract version counter
standing in for the auto-updated timestamp. -/
structure DocumentTemplate where
  fields : List (String × String)
  key_field : Option String
  file : Option Docx
  updated_at : Nat
deriving DecidableEq

/-- `field_values.get(key, "")` (with `str` a no-op on the string values
modelled here): the value substituted for a key, defaulting to the empty
string when the key is absent from the mapping. -/
def substValue (field_values : List (String × String)) (k : String) : String :=
  match field_values.lookup k with
  | some v => v
  | none => ""

/-- The context the structured-template branch builds (line 125 of
`models.py`): `{k: field_values.get(k, "") for k in self.fields.keys()}`. -/
def buildCtx (fields field_values : List (String × String)) :
    List (String × String) :=
  fields.map fun kv => (kv.1, substValue field_values kv.1)

/-- Python `str.replace(pat, rep)`: replace every occurrence of `pat`,
left to right, non-overlapping, resuming after the replacement.  The
fuel makes the recursion structural; fuel = length of the subject
suffices because every call consumes at least one character (the
patterns used here are never empty). -/
def replAllAux : Nat → List Char → List Char → List Char → List Char
  | 0, _, _, s => s
  | fuel + 1, pat, rep, s =>
    match s with
    | [] => []
    | c :: rest =>
      if !pat.isEmpty && pat.isPrefixOf (c :: rest) then
        rep ++ replAllAux fuel pat rep ((c :: rest).drop pat.length)
      else c :: replAllAux fuel pat rep rest

/-- `s.replace(pat, rep)` on character lists. -/
def replAll (pat rep s : List Char) : List Char :=
  replAllAux s.length pat rep s

/-- The literal pattern `f"[{key}]"`. -/
def sqPat (k : String) : List Char := '[' :: (k.data ++ [']'])

/-- The literal pattern `f"\x7b\x7b{key}\x7d\x7d"` (the doubled braces of the
f-string render as a literal `\x7b\x7bkey\x7d\x7d`). -/
def brPat (k : String) : List Char :=
  '{' :: '{' :: (k.data ++ ['}', '}'])

/-- One iteration of the replacement loop body (lines 147-150 of
`models.py`): replace the square-bracket form of a key, then its
double-brace form, both by `field_values.get(key, "")`. -/
def applyOneKey (field_values : List (String × String)) (txt : List Char)
    (k : String) : List Char :=
  replAll (brPat k) (substValue field_values k).data
    (replAll (sqPat k) (substValue field_values k).data txt)

/-- `replace_in_paragraphs` on one paragraph: a paragraph with no runs
is skipped; otherwise the concatenated run text has every schema key
replaced in both forms, and if anything changed, every existing run is
blanked and one run holding the new text is appended. -/
def fillRuns (fields field_values : List (String × String))
    (runs : Paragraph) : Paragraph :=
  match runs with
  | [] => []
  | _ :: _ =>
    let full := (String.join runs).data
    let newt := (fields.map Prod.fst).foldl (applyOneKey field_values) full
    if newt = full then runs
    else runs.map (fun _ => "") ++ [String.mk newt]

/-- The fallback fill strategy (lines 131-166 of `models.py`): rewrite
every body paragraph, then every paragraph of every table cell. -/
def fillDocx (fields field_values : List (String × String)) (d : Docx) :
    Docx :=
  ⟨d.paragraphs.map (fillRuns fields field_values),
    d.tables.map fun t =>
      t.map fun row =>
        row.map fun cell => cell.map (fillRuns fields field_values)⟩

/-- Failure taxonomy of the fill path.  `notFound` models the
`FileNotFoundError` the document library raises when the template's
underlying file is missing; it aborts the call before any output
exists. -/
inductive FillError where
  | notFound
deriving DecidableEq

/-- `DocumentTemplate.generate_filled_docx_bytes`: open the template
file (both strategies do this first; a missing file fails with
NotFound), replace placeholders, and return the in-memory result.  The
repository's own substitution code is the fallback branch modelled by
`fillDocx`; the other branch delegates the substitution to the external
`docxtpl` engine and is not part of this repository's sources.  The
returned `Docx` stands for the serialized `BytesIO` buffer. -/
def generate_filled_docx_bytes (t : DocumentTemplate)
    (field_values : List (String × String)) : Except FillError Docx :=
  match t.file with
  | none => .error .notFound
  | some doc => .ok (fillDocx t.fields field_values doc)

/-- `DocumentTemplate.extract_and_populate_fields` (the schema refresh):
re-extract the keys from the file, rebuild the key → label mapping,
assign a default key field only when the current one is falsy and at
least one key exists, and persist fields, key field and the bumped
update timestamp.  Opening a missing file fails with NotFound. -/
def extract_and_populate_fields (t : DocumentTemplate) :
    Except FillError DocumentTemplate :=
  match t.file with
  | none => .error .notFound
  | some doc =>
    let keys := extract_placeholders_from_docx doc
    let mapping := keys.map fun k => (k, humanizeLabel k)
    let kf :=
      match pyFalsy t.key_field, keys with
      | true, k :: _ => some k
      | _, _ => t.key_field
    .ok { t with fields := mapping, key_field := kf,
                 updated_at := t.updated_at + 1 }

/-- Assignment of `DocumentTemplate.key_field`: the column is a plain
`CharField(max_length=255, blank=True, null=True)` with no validator or
`choices`, so any string is stored as given. -/
def set_key_field (t : DocumentTemplate) (k : String) : DocumentTemplate :=
  { t with key_field := some k }

/-- The persisted `GeneratedDocument` row, restricted to the columns the
claims are about. -/
structure GeneratedDocument where
  field_values : List (String × String)
  key_field_value : Option String
deriving DecidableEq

/-- The persisted state a render call can see: the parent template row
and the generated-document row. -/
structure Store where
  template : DocumentTemplate
  gdoc : GeneratedDocument
deriving DecidableEq

/-- `GeneratedDocument.generate_and_attach_file`: fill the parent
template with the stored values and return the buffer.  The state is
passed through explicitly: the method assigns no attribute and calls no
`save()`, so the store component of the result is the input store. -/
def generate_and_attach_file (s : Store) : Except FillError (Store × Docx) :=
  match generate_filled_docx_bytes s.template s.gdoc.field_values with
  | .ok out => .ok (s, out)
  | .error e => .error e

/-! ## Order-theoretic facts about the key comparison -/

theorem lexLe_refl : ∀ a : List Char, lexLe a a = true
  | [] => rfl
  | c :: rest => by simp [lexLe, lt_irrefl, lexLe_refl rest]

theorem lexLe_total : ∀ a b : List Char, lexLe a b = true ∨ lexLe b a = true
  | [], _ => Or.inl rfl
  | _ :: _, [] => Or.inr rfl
  | a :: as, b :: bs => by
    rcases lt_trichotomy a b with h | h | h
    · exact Or.inl (by simp [lexLe, h])
    · subst h
      rcases lexLe_total as bs with ih | ih
      · exact Or.inl (by simp [lexLe, lt_irrefl, ih])
      · exact Or.inr (by simp [lexLe, lt_irrefl, ih])
    · exact Or.inr (by simp [lexLe, h])

theorem lexLe_trans :
    ∀ a b c : List Char,
      lexLe a b = true → lexLe b c = true → lexLe a c = true
  | [], _, _, _, _ => rfl
  | _ :: _, [], _, h1, _ => by simp [lexLe] at h1
  | _ :: _, _ :: _, [], _, h2 => by simp [lexLe] at h2
  | a :: as, b :: bs, c :: cs, h1, h2 => by
    rcases lt_trichotomy a b with hab | hab | hab
    · rcases lt_trichotomy b c with hbc | hbc | hbc
      · simp [lexLe, lt_trans hab hbc]
      · subst hbc; simp [lexLe, hab]
      · simp [lexLe, lt_asymm hbc, hbc] at h2
    · subst hab
      simp only [lexLe, lt_irrefl, if_false] at h1
      rcases lt_trichotomy a c with hac | hac | hac
      · simp [lexLe, hac]
      · subst hac
        simp only [lexLe, lt_irrefl, if_false] at h2 ⊢
        exact lexLe_trans as bs cs h1 h2
      · simp [lexLe, lt_asymm hac, hac] at h2
    · simp [lexLe, lt_asymm hab, hab] at h1

instance : IsTotal String fun a b => keyLe a b = true :=
  ⟨fun a b => lexLe_total a.data b.data⟩

instance : IsTrans String fun a b => keyLe a b = true :=
  ⟨fun a b c => lexLe_trans a.data b.data c.data⟩

/-- The extraction output is sorted under the key order: it is produced
by `insertionSort`. -/
theorem extract_sorted (d : Docx) :
    List.Sorted (fun a b => keyLe a b = true)
      (extract_placeholders_from_docx d) :=
  List.sorted_insertionSort _ _

/-- The extraction output has no duplicates: the sort permutes a
deduplicated list. -/
theorem extract_nodup (d : Docx) :
    (extract_placeholders_from_docx d).Nodup :=
  (List.perm_insertionSort _ _).nodup_iff.mpr (List.nodup_dedup _)

/-- A non-empty list all of whose elements equal `a` deduplicates to
`[a]`. -/
theorem dedup_const {α} [DecidableEq α] (a : α) :
    ∀ l : List α, l ≠ [] → (∀ x ∈ l, x = a) → l.dedup = [a]
  | [], h, _ => absurd rfl h
  | [x], _, hall => by rw [hall x (by simp)]; simp
  | x :: y :: ys, _, hall => by
    have hx : x = a := hall x (by simp)
    have hy : y = a := hall y (by simp)
    have hmem : x ∈ y :: ys := by
      rw [hx, ← hy]
      exact List.mem_cons_self y ys
    rw [List.dedup_cons_of_mem hmem]
    exact dedup_const a (y :: ys) (by simp)
      (fun z hz => hall z (List.mem_cons_of_mem x hz))

/-! ## Claims -/

/-- C2: for every input document, the list returned by placeholder
extraction is sorted in lexicographic order and contains no duplicate
keys. -/
theorem extraction_sorted_and_nodup (d : Docx) :
    List.Sorted (fun a b => keyLe a b = true)
      (extract_placeholders_from_docx d) ∧
    (extract_placeholders_from_docx d).Nodup :=
  ⟨extract_sorted d, extract_nodup d⟩

/-- C4: extracting a document whose text is `"[Full Name]"` yields the
single key `"Full_Name"` (whitespace trimmed and internal whitespace
collapsed to an underscore), and the label the schema builder derives
for `"Full_Name"` is `"Full Name"`. -/
theorem extract_full_name_and_label :
    extract_placeholders_from_docx ⟨[["[Full Name]"]], []⟩ = ["Full_Name"] ∧
    humanizeLabel "Full_Name" = "Full Name" := by
  constructor <;> rfl

/-- C1: filling the template whose paragraph text is `"Hello [NAME]"`
with the values `NAME ↦ Alice` produces a document whose text is
`"Hello Alice"`; and the value substituted for any schema key absent
from the value mapping is the empty string — both in the naive-replace
substitution (`substValue` is the value `replace` inserts) and in the
context the structured-template branch builds. -/
theorem fill_hello_alice_and_default_empty :
    (∃ out,
      generate_filled_docx_bytes
        ⟨[("NAME", "Name")], some "NAME", some ⟨[["Hello [NAME]"]], []⟩, 0⟩
        [("NAME", "Alice")] = .ok out ∧
      joinedText out = "Hello Alice") ∧
    (∀ (field_values : List (String × String)) (k : String),
      field_values.lookup k = none → substValue field_values k = "") ∧
    (∀ (fields field_values : List (String × String)) (k label : String),
      field_values.lookup k = none → (k, label) ∈ fields →
      (k, "") ∈ buildCtx fields field_values) := by
  refine ⟨⟨⟨[["", "Hello Alice"]], []⟩, rfl, rfl⟩, ?_, ?_⟩
  · intro field_values k h
    simp [substValue, h]
  · intro fields field_values k label h hmem
    have : (k, substValue field_values k) ∈ buildCtx fields field_values := by
      exact List.mem_map.mpr ⟨(k, label), hmem, rfl⟩
    simpa [substValue, h] using this

/-- Closed instance of C1's universally quantified parts: the key
`"NAME"` is absent from the value mapping, so its substituted value and
its context entry are the empty string. -/
theorem fill_hello_alice_and_default_empty_witness :
    substValue [("OTHER", "v")] "NAME" = "" ∧
    ("NAME", "") ∈ buildCtx [("NAME", "Name")] [("OTHER", "v")] :=
  ⟨fill_hello_alice_and_default_empty.2.1 [("OTHER", "v")] "NAME" (by decide),
    fill_hello_alice_and_default_empty.2.2 [("NAME", "Name")] [("OTHER", "v")]
      "NAME" "Name" (by decide) (by decide)⟩

/-- C3: for every document whose placeholder matches (in either syntax)
all capture exactly `A`, with at least one such match, extraction
returns exactly `["A"]`: the two syntaxes of the same normalized key
merge into a single key. -/
theorem merge_placeholder_syntaxes (d : Docx)
    (hne : findallSquare (joinedText d).data ++
      findallBrace (joinedText d).data ≠ [])
    (hall : ∀ m ∈ findallSquare (joinedText d).data ++
      findallBrace (joinedText d).data, m = ['A']) :
    extract_placeholders_from_docx d = ["A"] := by
  have hraw_ne : rawKeys d ≠ [] := by
    simpa [rawKeys] using hne
  have hraw_all : ∀ x ∈ rawKeys d, x = "A" := by
    intro x hx
    rcases List.mem_map.mp hx with ⟨m, hm, rfl⟩
    rw [hall m hm]
    rfl
  have h1 : (rawKeys d).dedup = ["A"] := dedup_const _ _ hraw_ne hraw_all
  rw [extract_placeholders_from_docx, h1]
  rfl

/-- Closed instance of C3: a document holding `[A]` in one paragraph and
the double-brace form of `A` in another extracts to the single key
`"A"`. -/
theorem merge_placeholder_syntaxes_witness :
    extract_placeholders_from_docx
      ⟨[["see [A] and "], ["\x7b\x7bA\x7d\x7d."]], []⟩ = ["A"] :=
  merge_placeholder_syntaxes ⟨[["see [A] and "], ["\x7b\x7bA\x7d\x7d."]], []⟩
    (by decide) (by decide)

/-- C5: schema refresh assigns a default key field only when the key
field is currently unset and the extracted key list is non-empty, in
which case it assigns the lexicographically smallest extracted key;
whenever the key field is set (non-falsy) before the refresh it is left
unchanged. -/
theorem refresh_key_field_default (t : DocumentTemplate) (doc : Docx)
    (hfile : t.file = some doc) :
    (pyFalsy t.key_field = false →
      ∃ t', extract_and_populate_fields t = .ok t' ∧
        t'.key_field = t.key_field) ∧
    (pyFalsy t.key_field = true → extract_placeholders_from_docx doc = [] →
      ∃ t', extract_and_populate_fields t = .ok t' ∧
        t'.key_field = t.key_field) ∧
    (pyFalsy t.key_field = true → extract_placeholders_from_docx doc ≠ [] →
      ∃ t' k, extract_and_populate_fields t = .ok t' ∧
        t'.key_field = some k ∧
        k ∈ extract_placeholders_from_docx doc ∧
        ∀ k' ∈ extract_placeholders_from_docx doc, keyLe k k' = true) := by
  refine ⟨?_, ?_, ?_⟩
  · intro hset
    have hres : extract_and_populate_fields t = .ok
        { t with
          fields := (extract_placeholders_from_docx doc).map
            fun k => (k, humanizeLabel k),
          key_field := t.key_field,
          updated_at := t.updated_at + 1 } := by
      cases hk : extract_placeholders_from_docx doc with
      | nil => simp [extract_and_populate_fields, hfile, hk, hset]
      | cons k ks => simp [extract_and_populate_fields, hfile, hk, hset]
    exact ⟨_, hres, rfl⟩
  · intro hunset hk
    have hres : extract_and_populate_fields t = .ok
        { t with fields := [], key_field := t.key_field,
                 updated_at := t.updated_at + 1 } := by
      simp [extract_and_populate_fields, hfile, hk, hunset]
    exact ⟨_, hres, rfl⟩
  · intro hunset hne
    cases hk : extract_placeholders_from_docx doc with
    | nil => exact absurd hk hne
    | cons k ks =>
      have hres : extract_and_populate_fields t = .ok
          { t with
            fields := (k :: ks).map fun k => (k, humanizeLabel k),
            key_field := some k,
            updated_at := t.updated_at + 1 } := by
        simp [extract_and_populate_fields, hfile, hk, hunset]
      refine ⟨_, k, hres, rfl, by simp [hk], ?_⟩
      intro k' hk'
      have hs := extract_sorted doc
      rw [hk] at hs
      rcases List.mem_cons.mp hk' with rfl | hmem
      · exact lexLe_refl k'.data
      · exact (List.sorted_cons.mp hs).1 k' hmem

/-- Closed instance of C5: on a template with an unset key field and a
file holding `[B]` and `[A]`, the refresh assigns the smallest key. -/
theorem refresh_key_field_default_witness :
    ∃ t' k,
      extract_and_populate_fields
        ⟨[], none, some ⟨[["[B] and [A]"]], []⟩, 0⟩ = .ok t' ∧
      t'.key_field = some k ∧
      k ∈ extract_placeholders_from_docx ⟨[["[B] and [A]"]], []⟩ ∧
      ∀ k' ∈ extract_placeholders_from_docx ⟨[["[B] and [A]"]], []⟩,
        keyLe k k' = true :=
  (refresh_key_field_default ⟨[], none, some ⟨[["[B] and [A]"]], []⟩, 0⟩
    ⟨[["[B] and [A]"]], []⟩ rfl).2.2 rfl (by decide)

/-- One successful schema refresh, in closed form: the general shape of
`extract_and_populate_fields` on a template whose file is present. -/
theorem refresh_shape (doc : Docx) (t0 : DocumentTemplate)
    (h0 : t0.file = some doc) :
    extract_and_populate_fields t0 = .ok
      { t0 with
        fields := (extract_placeholders_from_docx doc).map
          fun k => (k, humanizeLabel k),
        key_field :=
          match pyFalsy t0.key_field, extract_placeholders_from_docx doc with
          | true, k :: _ => some k
          | _, _ => t0.key_field,
        updated_at := t0.updated_at + 1 } := by
  simp [extract_and_populate_fields, h0]

/-- C6: running the schema refresh twice on a template whose underlying
file is unchanged produces the same schema mapping and the same key
field as running it once. -/
theorem refresh_idempotent (t t' : DocumentTemplate)
    (h : extract_and_populate_fields t = .ok t') :
    ∃ t'', extract_and_populate_fields t' = .ok t'' ∧
      t''.fields = t'.fields ∧ t''.key_field = t'.key_field := by
  cases hfile : t.file with
  | none => simp [extract_and_populate_fields, hfile] at h
  | some doc =>
    rw [refresh_shape doc t hfile] at h
    have ht' := Except.ok.inj h
    subst ht'
    refine ⟨_, refresh_shape doc _ hfile, rfl, ?_⟩
    rcases hk : extract_placeholders_from_docx doc with _ | ⟨k, ks⟩ <;>
      cases hp : pyFalsy t.key_field
    · simp [hk, hp]
    · simp [hk, hp]
    · simp [hk, hp]
    · cases hke : k.data.isEmpty <;> simp [hk, hp, pyFalsy, hke]

/-- Closed instance of C6: refreshing the already-refreshed template of
a file holding `[A]` leaves schema and key field unchanged. -/
theorem refresh_idempotent_witness :
    ∃ t'',
      extract_and_populate_fields
        ⟨[("A", "A")], some "A", some ⟨[["[A]"]], []⟩, 1⟩ = .ok t'' ∧
      t''.fields = [("A", "A")] ∧ t''.key_field = some "A" :=
  refresh_idempotent ⟨[], none, some ⟨[["[A]"]], []⟩, 0⟩
    ⟨[("A", "A")], some "A", some ⟨[["[A]"]], []⟩, 1⟩ (by rfl)

/-- C7 (refuting evidence): through the public operations — creation,
schema refresh, then assignment of the key field — a state is reachable
whose key field is not one of the schema's keys: the key-field column
carries no validator, so the documented invariant is not enforced. -/
theorem key_field_invariant_violated :
    ∃ t₁,
      extract_and_populate_fields ⟨[], none, some ⟨[["[A]"]], []⟩, 0⟩ =
        .ok t₁ ∧
      (set_key_field t₁ "Z").key_field = some "Z" ∧
      "Z" ∉ (set_key_field t₁ "Z").fields.map Prod.fst :=
  ⟨⟨[("A", "A")], some "A", some ⟨[["[A]"]], []⟩, 1⟩, by rfl, rfl, by decide⟩

/-- C8 (refuting evidence): assigning a key field that is not among the
schema's keys is accepted as-is — the stored key field becomes the bogus
key, the schema is untouched, and no error of any kind is raised (the
assignment has no failure channel). -/
theorem set_key_field_unvalidated :
    (set_key_field ⟨[("NAME", "Name")], none, none, 0⟩ "BOGUS").key_field =
      some "BOGUS" ∧
    (set_key_field ⟨[("NAME", "Name")], none, none, 0⟩ "BOGUS").fields =
      [("NAME", "Name")] ∧
    "BOGUS" ∉
      (set_key_field ⟨[("NAME", "Name")], none, none, 0⟩ "BOGUS").fields.map
        Prod.fst :=
  ⟨rfl, rfl, by decide⟩

/-- C9: filling a template whose underlying file is missing fails with
NotFound, both at the template level and through a generated document's
render; the error constructor carries no output and the passed-through
state is not modified on the failure path. -/
theorem fill_missing_file_not_found :
    (∀ (t : DocumentTemplate) (field_values : List (String × String)),
      t.file = none →
      generate_filled_docx_bytes t field_values = .error .notFound) ∧
    (∀ s : Store, s.template.file = none →
      generate_and_attach_file s = .error .notFound) := by
  constructor
  · intro t fv h
    simp [generate_filled_docx_bytes, h]
  · intro s h
    simp [generate_and_attach_file, generate_filled_docx_bytes, h]

/-- Closed instance of C9: a template with no underlying file fails with
NotFound on both fill entry points. -/
theorem fill_missing_file_not_found_witness :
    generate_filled_docx_bytes ⟨[("A", "A")], some "A", none, 0⟩ [] =
      .error .notFound ∧
    generate_and_attach_file
      ⟨⟨[("A", "A")], some "A", none, 0⟩, ⟨[], none⟩⟩ = .error .notFound :=
  ⟨fill_missing_file_not_found.1 _ _ rfl, fill_missing_file_not_found.2 _ rfl⟩

/-- C10: a generated document's render mutates no persisted state — the
store it returns is the store it was given (so the template's schema,
key field, file and timestamps and the generated-document record are all
unchanged) and the returned buffer is exactly the parent template's fill
applied to the stored value mapping. -/
theorem render_frame (s s' : Store) (out : Docx)
    (h : generate_and_attach_file s = .ok (s', out)) :
    s' = s ∧ s'.template = s.template ∧ s'.gdoc = s.gdoc ∧
    generate_filled_docx_bytes s.template s.gdoc.field_values = .ok out := by
  unfold generate_and_attach_file at h
  cases hg : generate_filled_docx_bytes s.template s.gdoc.field_values with
  | error e =>
    rw [hg] at h
    exact absurd h (by simp)
  | ok o =>
    rw [hg] at h
    simp only [Except.ok.injEq, Prod.mk.injEq] at h
    obtain ⟨h1, h2⟩ := h
    exact ⟨h1.symm, by rw [h1], by rw [h1], by rw [h2]⟩

/-- Closed instance of C10: rendering a concrete generated document
returns the untouched store and the filled buffer. -/
theorem render_frame_witness :
    (⟨⟨[("NAME", "Name")], some "NAME", some ⟨[["Hi [NAME]"]], []⟩, 0⟩,
        ⟨[("NAME", "Bob")], some "Bob"⟩⟩ : Store) =
      ⟨⟨[("NAME", "Name")], some "NAME", some ⟨[["Hi [NAME]"]], []⟩, 0⟩,
        ⟨[("NAME", "Bob")], some "Bob"⟩⟩ ∧
    (⟨⟨[("NAME", "Name")], some "NAME", some ⟨[["Hi [NAME]"]], []⟩, 0⟩,
        ⟨[("NAME", "Bob")], some "Bob"⟩⟩ : Store).template =
      (⟨⟨[("NAME", "Name")], some "NAME", some ⟨[["Hi [NAME]"]], []⟩, 0⟩,
        ⟨[("NAME", "Bob")], some "Bob"⟩⟩ : Store).template ∧
    (⟨⟨[("NAME", "Name")], some "NAME", some ⟨[["Hi [NAME]"]], []⟩, 0⟩,
        ⟨[("NAME", "Bob")], some "Bob"⟩⟩ : Store).gdoc =
      (⟨⟨[("NAME", "Name")], some "NAME", some ⟨[["Hi [NAME]"]], []⟩, 0⟩,
        ⟨[("NAME", "Bob")], some "Bob"⟩⟩ : Store).gdoc ∧
    generate_filled_docx_bytes
      ⟨[("NAME", "Name")], some "NAME", some ⟨[["Hi [NAME]"]], []⟩, 0⟩
      [("NAME", "Bob")] = .ok ⟨[["", "Hi Bob"]], []⟩ :=
  render_frame
    ⟨⟨[("NAME", "Name")], some "NAME", some ⟨[["Hi [NAME]"]], []⟩, 0⟩,
      ⟨[("NAME", "Bob")], some "Bob"⟩⟩
    ⟨⟨[("NAME", "Name")], some "NAME", some ⟨[["Hi [NAME]"]], []⟩, 0⟩,
      ⟨[("NAME", "Bob")], some "Bob"⟩⟩
    ⟨[["", "Hi Bob"]], []⟩ (by rfl)

end ShipmentForm
